import Mathlib

/-!
Verification of the Restore Coordination Engine of the stash repository.

The definitions below are a shallow embedding of `src/pkg/restore/restore.go`.
External calls (Kubernetes clients, the restic data-transfer engine, the
environment) are modelled by a `World` record holding, for each external call
the engine makes, the result that call returns during the run under study.
Within one run every call site that performs the same external call observes
the same `World` field, matching the sequential single-process execution of
the Go code.  Side effects that the claims talk about (invoking the data
transfer engine, durably writing the RestoreSession status, emitting a
Kubernetes event, acquiring and stepping down from the leader-election lock)
are recorded in an event trace; process termination is the `Outcome` produced
after the whole trace has happened.
-/

namespace Stash

/-! ### Data model (apis/stash/v1beta1 types used by restore.go) -/

/-- Reference to the Target workload (kind + name), `Spec.Target.Ref`. -/
structure TargetRef where
  apiVersion : String
  kind : String
  name : String
deriving DecidableEq, Repr

/-- `RestoreTarget`: the target of a RestoreSession. -/
structure RestoreTarget where
  ref : TargetRef
deriving DecidableEq, Repr

/-- Overall phase of a RestoreSession (`RestoreSessionPhase`). -/
inductive RestoreSessionPhase
  | Pending
  | Running
  | Succeeded
  | Failed
deriving DecidableEq, Repr

/-- Phase of one host's restore (`HostRestorePhase`). -/
inductive HostRestorePhase
  | Succeeded
  | Failed
deriving DecidableEq, Repr

/-- One `HostRestoreStats` entry of `RestoreSession.Status.Stats`. -/
structure HostRestoreStats where
  hostname : String
  phase : HostRestorePhase
  error : String
deriving DecidableEq, Repr

/-- `RestoreSession.Status`: overall phase plus per-host stats. -/
structure RestoreSessionStatus where
  phase : RestoreSessionPhase
  stats : List HostRestoreStats
deriving DecidableEq, Repr

/-- The part of `RestoreSession.Spec` that restore.go reads. -/
structure RestoreSessionSpec where
  target : Option RestoreTarget
  repositoryName : String
deriving DecidableEq, Repr

/-- Identity and spec of the RestoreSession custom resource; the status is
kept separately because it is the mutable shared state of the engine. -/
structure RestoreSessionBase where
  namespaceName : String
  name : String
  spec : RestoreSessionSpec
deriving DecidableEq, Repr

/-- A full `RestoreSession` value as returned by a client `Get`. -/
structure RestoreSession where
  namespaceName : String
  name : String
  spec : RestoreSessionSpec
  status : RestoreSessionStatus
deriving DecidableEq, Repr

/-- Assemble the session a client `Get` returns from its immutable part and
the current durable status. -/
def mkSession (base : RestoreSessionBase) (st : RestoreSessionStatus) : RestoreSession :=
  ⟨base.namespaceName, base.name, base.spec, st⟩

theorem mkSession_spec (base : RestoreSessionBase) (st : RestoreSessionStatus) :
    (mkSession base st).spec = base.spec := rfl

theorem mkSession_status (base : RestoreSessionBase) (st : RestoreSessionStatus) :
    (mkSession base st).status = st := rfl

attribute [simp] mkSession_spec mkSession_status

/-- `restic.RestoreOutput`: per-host statistics reported by the data
transfer engine. -/
structure RestoreOutput where
  hostRestoreStats : List HostRestoreStats
deriving DecidableEq, Repr

/-! ### Observable effects -/

/-- One observable side effect of the engine, in execution order. -/
inductive Event
  | engineInvoked (host : String)
  | statusUpdated (newStatus : RestoreSessionStatus)
  | eventEmitted (eventType reason message : String)
  | lockAcquired (lockName : String)
  | stepDown
deriving DecidableEq, Repr

/-- How a run ends: a value returned to the caller (`ok` for a nil error,
`err` for a non-nil error) or abnormal process termination with a fatal log
(`log.Fatalln`, a non-zero exit).  The trace of a run happens before its
outcome. -/
inductive Outcome
  | ok
  | err (msg : String)
  | fatal (msg : String)
deriving DecidableEq, Repr

def Outcome.isFatal : Outcome → Bool
  | Outcome.fatal _ => true
  | _ => false

def Event.isLockEvent : Event → Bool
  | Event.lockAcquired _ => true
  | Event.stepDown => true
  | _ => false

def Event.isEventEmitted : Event → Bool
  | Event.eventEmitted _ _ _ => true
  | _ => false

/-- Map a Go `error` return to an `Outcome`. -/
def retOutcome : Except String Unit → Outcome
  | Except.ok _ => Outcome.ok
  | Except.error e => Outcome.err e

/-! ### The environment of one run -/

/-- `Options` (restore.go) together with the behaviour of every external
collaborator during the run under study.  An `Except`-valued field is the
result of the corresponding external call. -/
structure World where
  /-- `opt.RestoreModel`. -/
  restoreModel : String
  /-- `StashClient…RestoreSessions(ns).Get`: identity and spec of the session
  (its status is the current durable status at the time of the call). -/
  sessionBase : Except String RestoreSessionBase
  /-- `StashClient…Repositories(ns).Get`. -/
  repositoryGet : Except String Unit
  /-- Modelled from the spec: `util.GetHostName` (not under src/), §4.3 step
  (1): hostname resolution is a pure, reproducible function of the Target
  reference and the fixed per-process contender identity (folded into the
  World), so every call with the same Target in one run returns the same
  hostname. -/
  getHostName : Option RestoreTarget → Except String String
  /-- `util.SetupOptionsForRepository`. -/
  setupOptionsForRepository : Except String Unit
  /-- `util.NiceSettingsFromEnv`. -/
  niceSettingsFromEnv : Except String Unit
  /-- `util.IONiceSettingsFromEnv`. -/
  ioNiceSettingsFromEnv : Except String Unit
  /-- `resourcelock.New`. -/
  newResourceLock : Except String Unit
  /-- `restic.NewResticWrapper`. -/
  newResticWrapper : Except String Unit
  /-- `w.RunRestore(util.RestoreOptionsForHost(host, rules))`: the data
  transfer engine, a black box per §2; per §4.3 step (4) it returns either a
  success outcome with statistics or a failure outcome, so an error carries
  no output (the Go wrapper returns a nil output alongside the error). -/
  runRestoreEngine : String → Except String RestoreOutput
  /-- Result of the durable write performed by the Status Synchronizer:
  conflicts are retried internally (§4.4), only a hard backend error
  surfaces. -/
  statusWrite : Except String Unit
  /-- Expected number of hosts of the Target workload, the topology input the
  Status Synchronizer consumes for the last-expected-host test (§4.4). -/
  totalHosts : Nat
  /-- `reference.GetReference(stash_scheme.Scheme, restoreSession)`. -/
  getReference : Except String Unit

/-- `RestoreModelInitContainer` (restore.go). -/
def RestoreModelInitContainer : String := "init-container"

/-- `RestoreModelJob` (restore.go). -/
def RestoreModelJob : String := "job"

/-- Modelled from the spec: `util.GetRestoreConfigmapLockName` (not under
src/): the Distributed Mutex key is derived deterministically from the Target
workload's kind and name (§4.1, §6), so all replicas of the same workload
contend on the same key. -/
def getRestoreConfigmapLockName (workload : TargetRef) : String :=
  "restore-lock-" ++ workload.kind ++ "-" ++ workload.name

/-! ### Status Synchronizer (spec-modelled) -/

/-- Modelled from the spec: §4.4, append-or-replace of the HostRestoreStat
keyed by hostname (idempotent under retry of the same outcome). -/
def upsertHostStats (stats : List HostRestoreStats) (s : HostRestoreStats) :
    List HostRestoreStats :=
  if stats.any (fun t => t.hostname == s.hostname) then
    stats.map (fun t => if t.hostname == s.hostname then s else t)
  else
    stats ++ [s]

/-- Modelled from the spec: §4.4 phase recomputation after a merge — Failed
if any recorded host failed (a single host's failure fails the overall job);
Succeeded if all expected hosts are recorded and all succeeded; otherwise the
previous phase is left unchanged. -/
def recomputePhase (oldPhase : RestoreSessionPhase) (stats : List HostRestoreStats)
    (totalHosts : Nat) : RestoreSessionPhase :=
  if stats.any (fun t => t.phase == HostRestorePhase.Failed) then
    RestoreSessionPhase.Failed
  else if stats.length == totalHosts
      && stats.all (fun t => t.phase == HostRestorePhase.Succeeded) then
    RestoreSessionPhase.Succeeded
  else
    oldPhase

/-- The error reported by the Status Synchronizer when it is invoked without
a host outcome to merge. -/
def invalidRestoreOutputMsg : String := "invalid restore output"

/-- Modelled from the spec: `status.UpdateStatusOptions.UpdatePostRestoreStatus`
(pkg/status, not under src/).  Per §4.4 the Status Synchronizer merges the
given host outcome into the shared status with a retried read-modify-write
and recomputes the overall phase; its contract `update(restoreJob, hostStat)`
requires a host outcome, and constructing a failure outcome is the Failure
Handler's job (§4.5), so a call without an output is rejected with an error
and no write happens. -/
def updatePostRestoreStatus (w : World) (st : RestoreSessionStatus)
    (restoreOutput : Option RestoreOutput) :
    Except String Unit × RestoreSessionStatus × List Event :=
  match restoreOutput with
  | none => (Except.error invalidRestoreOutputMsg, st, [])
  | some out =>
    match w.statusWrite with
    | Except.error e => (Except.error e, st, [])
    | Except.ok _ =>
      let newStats := out.hostRestoreStats.foldl upsertHostStats st.stats
      let newStatus : RestoreSessionStatus :=
        ⟨recomputePhase st.phase newStats w.totalHosts, newStats⟩
      (Except.ok (), newStatus, [Event.statusUpdated newStatus])

/-! ### restore.go, translated -/

/-- `isRestoredForThisHost` (restore.go:254-270): true when the overall phase
is Succeeded or Failed, or when the status already holds an entry for this
host. -/
def isRestoredForThisHost (restoreSession : RestoreSession) (host : String) : Bool :=
  if restoreSession.status.phase == RestoreSessionPhase.Succeeded
      || restoreSession.status.phase == RestoreSessionPhase.Failed then
    true
  else
    restoreSession.status.stats.any (fun hostStats => hostStats.hostname == host)

/-- `runRestore` (restore.go:158-198): resolve the hostname, consult the
idempotency guard, run the data transfer engine and hand its result to the
status updater.  On an engine error the Go wrapper returned a nil output, so
the updater receives no output. -/
def runRestore (w : World) (restoreSession : RestoreSession)
    (st : RestoreSessionStatus) :
    Except String Unit × RestoreSessionStatus × List Event :=
  match w.getHostName restoreSession.spec.target with
  | Except.error e => (Except.error e, st, [])
  | Except.ok host =>
    if isRestoredForThisHost restoreSession host then
      (Except.ok (), st, [])
    else
      match w.newResticWrapper with
      | Except.error e => (Except.error e, st, [])
      | Except.ok _ =>
        match w.runRestoreEngine host with
        | Except.error _ =>
          match updatePostRestoreStatus w st none with
          | (r, st', tr) => (r, st', Event.engineInvoked host :: tr)
        | Except.ok restoreOutput =>
          match updatePostRestoreStatus w st (some restoreOutput) with
          | (r, st', tr) => (r, st', Event.engineInvoked host :: tr)

/-- `HandleRestoreFailure` (restore.go:200-235): re-fetch the session,
re-resolve the hostname and hand a Failed stat carrying the error message to
the status updater. -/
def HandleRestoreFailure (w : World) (st : RestoreSessionStatus)
    (restoreErr : Option String) :
    Except String Unit × RestoreSessionStatus × List Event :=
  match w.sessionBase with
  | Except.error e => (Except.error e, st, [])
  | Except.ok base =>
    match w.getHostName (mkSession base st).spec.target with
    | Except.error e => (Except.error e, st, [])
    | Except.ok host =>
      let errorMsg := match restoreErr with
        | some m => m
        | none => ""
      updatePostRestoreStatus w st
        (some ⟨[⟨host, HostRestorePhase.Failed, errorMsg⟩]⟩)

/-- `writeRestoreFailureEvent` (restore.go:237-252): emit a warning event for
the failed host, or only log when the object reference cannot be built.
Note: this function is defined in restore.go but is never invoked by any code
path of the package. -/
def writeRestoreFailureEvent (w : World) (host : String) (errMsg : String) :
    List Event :=
  match w.getReference with
  | Except.ok _ =>
    [Event.eventEmitted "Warning" "HostRestoreFailed"
      ("Failed to restore for host \"" ++ host ++ "\". Reason: " ++ errMsg)]
  | Except.error _ => []

/-- `electRestoreLeader` (restore.go:100-156): build the resource lock, run
the leader election, and inside `OnStartedLeading` run `runRestore`; on its
error call `HandleRestoreFailure`, step down (`cancel()`), and terminate
fatally; on success step down and return nil.  Go dereferences
`Spec.Target.Ref` without a check — a nil Target would panic, which the model
records as a fatal outcome; `Restore` has already ruled that case out. -/
def electRestoreLeader (w : World) (restoreSession : RestoreSession)
    (st : RestoreSessionStatus) :
    Outcome × RestoreSessionStatus × List Event :=
  match restoreSession.spec.target with
  | none => (Outcome.fatal "nil Target dereference", st, [])
  | some target =>
    match w.newResourceLock with
    | Except.error e =>
      (Outcome.err ("error during leader election: " ++ e), st, [])
    | Except.ok _ =>
      let lockName := getRestoreConfigmapLockName target.ref
      match runRestore w restoreSession st with
      | (Except.error e, st', tr) =>
        match HandleRestoreFailure w st' (some e) with
        | (Except.error e2, st'', tr2) =>
          (Outcome.fatal ("failed to complete restore. Reason: " ++ e ++ "; " ++ e2),
           st'', Event.lockAcquired lockName :: (tr ++ tr2 ++ [Event.stepDown]))
        | (Except.ok _, st'', tr2) =>
          (Outcome.fatal ("failed to complete restore. Reason: " ++ e),
           st'', Event.lockAcquired lockName :: (tr ++ tr2 ++ [Event.stepDown]))
      | (Except.ok _, st', tr) =>
        (Outcome.ok, st', Event.lockAcquired lockName :: (tr ++ [Event.stepDown]))

/-- `Restore` (restore.go:49-98): fetch the session, reject a nil Target,
fetch the repository, resolve the hostname for the setup options, build the
setup options, then either run `runRestore` directly (job model — the
execution substrate already guarantees one writer per host) or go through
leader election. -/
def Restore (w : World) (st : RestoreSessionStatus) :
    Outcome × RestoreSessionStatus × List Event :=
  match w.sessionBase with
  | Except.error e => (Outcome.err e, st, [])
  | Except.ok base =>
    match (mkSession base st).spec.target with
    | none => (Outcome.err "invalid RestoreSession. Target is nil", st, [])
    | some _ =>
      match w.repositoryGet with
      | Except.error e => (Outcome.err e, st, [])
      | Except.ok _ =>
        match w.getHostName (mkSession base st).spec.target with
        | Except.error e => (Outcome.err e, st, [])
        | Except.ok _host =>
          match w.setupOptionsForRepository with
          | Except.error e => (Outcome.err e, st, [])
          | Except.ok _ =>
            match w.niceSettingsFromEnv with
            | Except.error e => (Outcome.err e, st, [])
            | Except.ok _ =>
              match w.ioNiceSettingsFromEnv with
              | Except.error e => (Outcome.err e, st, [])
              | Except.ok _ =>
                if w.restoreModel == RestoreModelJob then
                  match runRestore w (mkSession base st) st with
                  | (r, st', tr) => (retOutcome r, st', tr)
                else
                  electRestoreLeader w (mkSession base st) st

/-- Modelled from the spec: the process entry point that invokes the
Coordinator (the command-level caller of `Restore` is not under src/).  Per
§4.5(d) and the process exit contract of §6 it exits 0 on success and, on an
unrecoverable error returned by the Coordinator, records the failure through
the Failure Handler and terminates abnormally (non-zero exit) so a
supervising restart policy can re-launch it. -/
def restoreProcess (w : World) (st : RestoreSessionStatus) :
    Outcome × RestoreSessionStatus × List Event :=
  match Restore w st with
  | (Outcome.ok, st', tr) => (Outcome.ok, st', tr)
  | (Outcome.fatal msg, st', tr) => (Outcome.fatal msg, st', tr)
  | (Outcome.err e, st', tr) =>
    match HandleRestoreFailure w st' (some e) with
    | (Except.error e2, st'', tr2) =>
      (Outcome.fatal ("failed to complete restore process. Reason: " ++ e ++ "; " ++ e2),
       st'', tr ++ tr2)
    | (Except.ok _, st'', tr2) =>
      (Outcome.fatal ("failed to complete restore process. Reason: " ++ e),
       st'', tr ++ tr2)

/-! ### Concrete inputs used by closed theorems and witnesses -/

/-- A concrete StatefulSet target reference. -/
def demoTargetRef : TargetRef := ⟨"apps/v1", "StatefulSet", "demo"⟩

/-- A concrete RestoreSession identity and spec with a non-nil Target. -/
def demoBase : RestoreSessionBase :=
  ⟨"default", "demo-restore", ⟨some ⟨demoTargetRef⟩, "demo-repo"⟩⟩

/-- A fresh (Pending, no stats) status. -/
def emptyStatus : RestoreSessionStatus := ⟨RestoreSessionPhase.Pending, []⟩

/-- A terminally Succeeded status with no stats. -/
def succeededStatus : RestoreSessionStatus := ⟨RestoreSessionPhase.Succeeded, []⟩

/-- An exclusive-mode run in which every external call succeeds except the
data transfer engine, which fails with "repository locked". -/
def demoWorld : World where
  restoreModel := RestoreModelInitContainer
  sessionBase := Except.ok demoBase
  repositoryGet := Except.ok ()
  getHostName := fun _ => Except.ok "host-0"
  setupOptionsForRepository := Except.ok ()
  niceSettingsFromEnv := Except.ok ()
  ioNiceSettingsFromEnv := Except.ok ()
  newResourceLock := Except.ok ()
  newResticWrapper := Except.ok ()
  runRestoreEngine := fun _ => Except.error "repository locked"
  statusWrite := Except.ok ()
  totalHosts := 1
  getReference := Except.ok ()

/-- The same run in non-exclusive (job) mode. -/
def demoJobWorld : World := { demoWorld with restoreModel := RestoreModelJob }

/-- A world whose session has a nil Target. -/
def demoNilTargetWorld : World :=
  { demoWorld with
    sessionBase := Except.ok ⟨"default", "demo-restore", ⟨none, "demo-repo"⟩⟩ }

/-- A status that already holds a stat for host-0, overall phase Running. -/
def runningWithHostStatus : RestoreSessionStatus :=
  ⟨RestoreSessionPhase.Running, [⟨"host-0", HostRestorePhase.Succeeded, ""⟩]⟩

/-! ### C3: the idempotency guard -/

/-- C3: `isRestoredForThisHost` returns true exactly when the session's
overall phase is Succeeded or Failed, or some entry of Status.Stats carries
this hostname; otherwise it returns false. -/
theorem isRestoredForThisHost_iff (restoreSession : RestoreSession) (host : String) :
    isRestoredForThisHost restoreSession host = true ↔
      (restoreSession.status.phase = RestoreSessionPhase.Succeeded ∨
       restoreSession.status.phase = RestoreSessionPhase.Failed ∨
       ∃ hs ∈ restoreSession.status.stats, hs.hostname = host) := by
  unfold isRestoredForThisHost
  split
  · rename_i hc
    simp only [Bool.or_eq_true, beq_iff_eq] at hc
    exact iff_of_true rfl (hc.elim Or.inl (fun h => Or.inr (Or.inl h)))
  · rename_i hc
    simp only [Bool.or_eq_true, beq_iff_eq] at hc
    push_neg at hc
    simp only [List.any_eq_true, beq_iff_eq]
    constructor
    · intro h
      exact Or.inr (Or.inr h)
    · intro h
      rcases h with h | h | h
      · exact absurd h hc.1
      · exact absurd h hc.2
      · exact h

/-! ### C4: the already-done path is a silent no-op -/

/-- C4: when the idempotency guard reports already-done, `runRestore`
returns a nil error, leaves the shared status untouched, and produces no
effect at all — in particular the data transfer engine is not invoked and no
status update happens (the trace is empty). -/
theorem runRestore_noop_when_already_restored (w : World)
    (restoreSession : RestoreSession) (st : RestoreSessionStatus) (host : String)
    (hhost : w.getHostName restoreSession.spec.target = Except.ok host)
    (hdone : isRestoredForThisHost restoreSession host = true) :
    runRestore w restoreSession st = (Except.ok (), st, []) := by
  unfold runRestore
  simp only [hhost]
  simp [hdone]

/-- Witness for C4 at a concrete session already holding a stat for
host-0. -/
theorem runRestore_noop_when_already_restored_witness :
    runRestore demoWorld (mkSession demoBase runningWithHostStatus)
        runningWithHostStatus = (Except.ok (), runningWithHostStatus, []) :=
  runRestore_noop_when_already_restored demoWorld
    (mkSession demoBase runningWithHostStatus) runningWithHostStatus "host-0"
    rfl (by decide)

/-! ### C9: nil Target is rejected up front -/

/-- C9: a RestoreSession with a nil Spec.Target makes `Restore` return an
error immediately: the status is unchanged and the trace is empty, so no
mutex interaction and no status write happened. -/
theorem restore_nil_target_rejected (w : World) (st : RestoreSessionStatus)
    (base : RestoreSessionBase)
    (hbase : w.sessionBase = Except.ok base)
    (htgt : base.spec.target = none) :
    Restore w st = (Outcome.err "invalid RestoreSession. Target is nil", st, []) := by
  unfold Restore
  rw [hbase]
  simp [htgt]

/-- Witness for C9 at a concrete world with a nil Target. -/
theorem restore_nil_target_rejected_witness :
    Restore demoNilTargetWorld emptyStatus =
      (Outcome.err "invalid RestoreSession. Target is nil", emptyStatus, []) :=
  restore_nil_target_rejected demoNilTargetWorld emptyStatus
    ⟨"default", "demo-restore", ⟨none, "demo-repo"⟩⟩ rfl rfl

/-! ### C7: no diagnostic event is emitted on the failure path -/

/-- C7 (code bug): on an executor failure in exclusive mode no diagnostic
event referencing the RestoreSession is emitted before the process
terminates: the run ends fatally yet its trace holds no emitted event.
`writeRestoreFailureEvent` implements exactly the emission the spec
describes, but no code path of the package invokes it. -/
theorem no_failure_event_emitted :
    (restoreProcess demoWorld emptyStatus).1.isFatal = true ∧
    ((restoreProcess demoWorld emptyStatus).2.2.all
        (fun ev => !ev.isEventEmitted)) = true ∧
    writeRestoreFailureEvent demoWorld "host-0" "repository locked" ≠ [] := by
  refine ⟨by decide, by decide, by decide⟩

/-! ### Facts about the idempotency guard -/

/-- A negative guard means in particular that no stat for this host is
recorded yet. -/
theorem stats_any_false_of_guard_false (sess : RestoreSession) (host : String)
    (h : isRestoredForThisHost sess host = false) :
    sess.status.stats.any (fun hostStats => hostStats.hostname == host) = false := by
  unfold isRestoredForThisHost at h
  split at h
  · exact absurd h (by simp)
  · exact h

/-- A terminal overall phase makes the guard fire for every hostname. -/
theorem isRestoredForThisHost_of_terminal (sess : RestoreSession) (host : String)
    (h : sess.status.phase = RestoreSessionPhase.Succeeded ∨
         sess.status.phase = RestoreSessionPhase.Failed) :
    isRestoredForThisHost sess host = true := by
  unfold isRestoredForThisHost
  rcases h with h | h <;> simp [h]

/-- With a terminal phase, `runRestore` leaves the status unchanged and
produces no effect, whether or not hostname resolution succeeds. -/
theorem runRestore_terminal (w : World) (sess : RestoreSession)
    (st : RestoreSessionStatus) (hsess : sess.status = st)
    (hterm : st.phase = RestoreSessionPhase.Succeeded ∨
             st.phase = RestoreSessionPhase.Failed) :
    (runRestore w sess st).2.1 = st ∧ (runRestore w sess st).2.2 = [] := by
  have hterm' : sess.status.phase = RestoreSessionPhase.Succeeded ∨
      sess.status.phase = RestoreSessionPhase.Failed := by rw [hsess]; exact hterm
  unfold runRestore
  cases hh : w.getHostName sess.spec.target with
  | error e => simp
  | ok host => simp [isRestoredForThisHost_of_terminal sess host hterm']

/-- With a terminal phase and successful hostname resolution, `runRestore`
returns a nil error with an unchanged status and empty trace. -/
theorem runRestore_terminal_ok (w : World) (sess : RestoreSession)
    (st : RestoreSessionStatus) (host : String)
    (hh : w.getHostName sess.spec.target = Except.ok host)
    (hsess : sess.status = st)
    (hterm : st.phase = RestoreSessionPhase.Succeeded ∨
             st.phase = RestoreSessionPhase.Failed) :
    runRestore w sess st = (Except.ok (), st, []) := by
  have hterm' : sess.status.phase = RestoreSessionPhase.Succeeded ∨
      sess.status.phase = RestoreSessionPhase.Failed := by rw [hsess]; exact hterm
  unfold runRestore
  simp only [hh]
  simp [isRestoredForThisHost_of_terminal sess host hterm']

/-- With a terminal phase, the whole `Restore` flow (either execution mode)
leaves the durable status unchanged and performs no status update. -/
theorem restore_terminal (w : World) (st : RestoreSessionStatus)
    (hterm : st.phase = RestoreSessionPhase.Succeeded ∨
             st.phase = RestoreSessionPhase.Failed) :
    (Restore w st).2.1 = st ∧
    ∀ s, Event.statusUpdated s ∉ (Restore w st).2.2 := by
  unfold Restore
  cases hsb : w.sessionBase with
  | error e => simp
  | ok base =>
    cases htg : base.spec.target with
    | none => simp [htg]
    | some tgt =>
      cases hrp : w.repositoryGet with
      | error e => simp [htg, hrp]
      | ok u =>
        cases hh : w.getHostName (some tgt) with
        | error e => simp [htg, hrp, hh]
        | ok host =>
          cases hs1 : w.setupOptionsForRepository with
          | error e => simp [htg, hrp, hh, hs1]
          | ok u1 =>
            cases hs2 : w.niceSettingsFromEnv with
            | error e => simp [htg, hrp, hh, hs1, hs2]
            | ok u2 =>
              cases hs3 : w.ioNiceSettingsFromEnv with
              | error e => simp [htg, hrp, hh, hs1, hs2, hs3]
              | ok u3 =>
                have hh' : w.getHostName (mkSession base st).spec.target =
                    Except.ok host := by simp [htg, hh]
                have hrun := runRestore_terminal_ok w (mkSession base st) st host
                  hh' rfl hterm
                cases hm : w.restoreModel == RestoreModelJob with
                | true =>
                  simp [htg, hrp, hh, hs1, hs2, hs3, hm, hrun, retOutcome]
                | false =>
                  unfold electRestoreLeader
                  cases hlk : w.newResourceLock with
                  | error e => simp [htg, hrp, hh, hs1, hs2, hs3, hm, hlk]
                  | ok u4 => simp [htg, hrp, hh, hs1, hs2, hs3, hm, hlk, hrun]

/-! ### C5: terminal-phase lock-in -/

/-- C5 counterexample: `HandleRestoreFailure`, invoked on a session whose
overall phase is already terminal (Succeeded), still appends a new
HostRestoreStat and flips the phase to Failed — so the claim that every
status-writing operation of the engine preserves a terminal phase is false
for `HandleRestoreFailure` taken on its own. -/
theorem handleRestoreFailure_writes_despite_terminal_phase :
    succeededStatus.phase = RestoreSessionPhase.Succeeded ∧
    (HandleRestoreFailure demoWorld succeededStatus
        (some "transfer failed")).2.1.stats ≠ succeededStatus.stats ∧
    (HandleRestoreFailure demoWorld succeededStatus
        (some "transfer failed")).2.1.phase = RestoreSessionPhase.Failed := by
  refine ⟨rfl, by decide, by decide⟩

/-- C5 as amended: within the engine's own control flow a terminal phase is
locked in — `Restore` (in both execution modes, and therefore the
`runRestore` / leader-election paths it drives) leaves the status untouched
and performs no status update, and so does `runRestore` invoked on any
session whose status is terminal.  `HandleRestoreFailure` in isolation is the
exception exhibited by the counterexample, but inside the engine it is only
reached when the guard observed a non-terminal phase. -/
theorem restore_flow_preserves_terminal_phase (w : World)
    (st : RestoreSessionStatus)
    (hterm : st.phase = RestoreSessionPhase.Succeeded ∨
             st.phase = RestoreSessionPhase.Failed) :
    (Restore w st).2.1 = st ∧
    (∀ s, Event.statusUpdated s ∉ (Restore w st).2.2) ∧
    ∀ sess : RestoreSession, sess.status = st →
      (runRestore w sess st).2.1 = st ∧
      ∀ s, Event.statusUpdated s ∉ (runRestore w sess st).2.2 := by
  obtain ⟨ha, hb⟩ := restore_terminal w st hterm
  refine ⟨ha, hb, ?_⟩
  intro sess hsess
  obtain ⟨h1, h2⟩ := runRestore_terminal w sess st hsess hterm
  exact ⟨h1, fun s => by simp [h2]⟩

/-- Witness for C5's amended theorem at a concrete terminal status. -/
theorem restore_flow_preserves_terminal_phase_witness :
    (Restore demoWorld succeededStatus).2.1 = succeededStatus :=
  (restore_flow_preserves_terminal_phase demoWorld succeededStatus (Or.inl rfl)).1

/-! ### The engine-error path, computed exactly -/

/-- When the engine fails, the status updater inside `runRestore` receives no
output and rejects the call, so `runRestore` returns the updater's error with
the status unchanged; only the engine invocation is on the trace. -/
theorem runRestore_engine_error (w : World) (base : RestoreSessionBase)
    (st : RestoreSessionStatus) (tgt : RestoreTarget) (host e : String)
    (htgt : base.spec.target = some tgt)
    (hhost : w.getHostName (some tgt) = Except.ok host)
    (hguard : isRestoredForThisHost (mkSession base st) host = false)
    (hwrap : w.newResticWrapper = Except.ok ())
    (heng : w.runRestoreEngine host = Except.error e) :
    runRestore w (mkSession base st) st =
      (Except.error invalidRestoreOutputMsg, st, [Event.engineInvoked host]) := by
  unfold runRestore
  have hh' : w.getHostName (mkSession base st).spec.target = Except.ok host := by
    simp [htgt, hhost]
  simp only [hh']
  simp [hguard, hwrap, heng, updatePostRestoreStatus]

/-- `HandleRestoreFailure` with a fresh hostname appends a Failed stat
carrying the given message and flips the overall phase to Failed. -/
theorem handleRestoreFailure_writes (w : World) (base : RestoreSessionBase)
    (st : RestoreSessionStatus) (tgt : RestoreTarget) (host m : String)
    (hbase : w.sessionBase = Except.ok base)
    (htgt : base.spec.target = some tgt)
    (hhost : w.getHostName (some tgt) = Except.ok host)
    (hwrite : w.statusWrite = Except.ok ())
    (hstats : st.stats.any (fun hostStats => hostStats.hostname == host) = false) :
    HandleRestoreFailure w st (some m) =
      (Except.ok (),
       ⟨RestoreSessionPhase.Failed,
        st.stats ++ [⟨host, HostRestorePhase.Failed, m⟩]⟩,
       [Event.statusUpdated
          ⟨RestoreSessionPhase.Failed,
           st.stats ++ [⟨host, HostRestorePhase.Failed, m⟩]⟩]) := by
  unfold HandleRestoreFailure updatePostRestoreStatus
  have hh' : w.getHostName (mkSession base st).spec.target = Except.ok host := by
    simp [htgt, hhost]
  simp only [hbase, hh', hwrite]
  simp [upsertHostStats, hstats, recomputePhase, List.any_append]

/-- The leader-elected unit of work under an engine error: record the Failed
stat, step down, terminate fatally — in that order on the trace. -/
theorem electRestoreLeader_engine_error (w : World) (base : RestoreSessionBase)
    (st : RestoreSessionStatus) (tgt : RestoreTarget) (host e : String)
    (hbase : w.sessionBase = Except.ok base)
    (htgt : base.spec.target = some tgt)
    (hhost : w.getHostName (some tgt) = Except.ok host)
    (hguard : isRestoredForThisHost (mkSession base st) host = false)
    (hwrap : w.newResticWrapper = Except.ok ())
    (heng : w.runRestoreEngine host = Except.error e)
    (hwrite : w.statusWrite = Except.ok ())
    (hlock : w.newResourceLock = Except.ok ()) :
    electRestoreLeader w (mkSession base st) st =
      (Outcome.fatal
         ("failed to complete restore. Reason: " ++ invalidRestoreOutputMsg),
       ⟨RestoreSessionPhase.Failed,
        st.stats ++ [⟨host, HostRestorePhase.Failed, invalidRestoreOutputMsg⟩]⟩,
       [Event.lockAcquired (getRestoreConfigmapLockName tgt.ref),
        Event.engineInvoked host,
        Event.statusUpdated
          ⟨RestoreSessionPhase.Failed,
           st.stats ++ [⟨host, HostRestorePhase.Failed, invalidRestoreOutputMsg⟩]⟩,
        Event.stepDown]) := by
  have hstats := stats_any_false_of_guard_false (mkSession base st) host hguard
  rw [mkSession_status] at hstats
  have hrun := runRestore_engine_error w base st tgt host e htgt hhost hguard hwrap heng
  have hfail := handleRestoreFailure_writes w base st tgt host
    invalidRestoreOutputMsg hbase htgt hhost hwrite hstats
  unfold electRestoreLeader
  simp [htgt, hlock, hrun, hfail]

/-- The full process under an engine error, in either execution mode: the
outcome is fatal, the durable status ends Failed with a Failed stat for the
resolved host appended, and both the engine invocation and that status
update are on the trace (hence before the exit). -/
theorem restoreProcess_engine_error_facts (w : World)
    (st : RestoreSessionStatus) (base : RestoreSessionBase)
    (tgt : RestoreTarget) (host e : String)
    (hbase : w.sessionBase = Except.ok base)
    (htgt : base.spec.target = some tgt)
    (hrepo : w.repositoryGet = Except.ok ())
    (hhost : w.getHostName (some tgt) = Except.ok host)
    (hsetup : w.setupOptionsForRepository = Except.ok ())
    (hnice : w.niceSettingsFromEnv = Except.ok ())
    (hionice : w.ioNiceSettingsFromEnv = Except.ok ())
    (hwrap : w.newResticWrapper = Except.ok ())
    (hlock : w.newResourceLock = Except.ok ())
    (heng : w.runRestoreEngine host = Except.error e)
    (hwrite : w.statusWrite = Except.ok ())
    (hguard : isRestoredForThisHost (mkSession base st) host = false) :
    (restoreProcess w st).1.isFatal = true ∧
    (restoreProcess w st).2.1 =
      ⟨RestoreSessionPhase.Failed,
       st.stats ++ [⟨host, HostRestorePhase.Failed, invalidRestoreOutputMsg⟩]⟩ ∧
    Event.engineInvoked host ∈ (restoreProcess w st).2.2 ∧
    Event.statusUpdated
        ⟨RestoreSessionPhase.Failed,
         st.stats ++ [⟨host, HostRestorePhase.Failed, invalidRestoreOutputMsg⟩]⟩
      ∈ (restoreProcess w st).2.2 := by
  have hstats := stats_any_false_of_guard_false (mkSession base st) host hguard
  rw [mkSession_status] at hstats
  have hrun := runRestore_engine_error w base st tgt host e htgt hhost hguard hwrap heng
  have hfail := handleRestoreFailure_writes w base st tgt host
    invalidRestoreOutputMsg hbase htgt hhost hwrite hstats
  cases hm : w.restoreModel == RestoreModelJob with
  | false =>
    have helect := electRestoreLeader_engine_error w base st tgt host e
      hbase htgt hhost hguard hwrap heng hwrite hlock
    have hRestore : Restore w st = electRestoreLeader w (mkSession base st) st := by
      unfold Restore
      simp [hbase, htgt, hrepo, hhost, hsetup, hnice, hionice, hm]
    unfold restoreProcess
    rw [hRestore, helect]
    simp [Outcome.isFatal]
  | true =>
    have hRestore : Restore w st =
        (Outcome.err invalidRestoreOutputMsg, st, [Event.engineInvoked host]) := by
      unfold Restore
      simp [hbase, htgt, hrepo, hhost, hsetup, hnice, hionice, hm, hrun, retOutcome]
    unfold restoreProcess
    rw [hRestore]
    simp [hfail, Outcome.isFatal]

/-! ### C1: fail-fast restart contract -/

/-- C1: whenever the data transfer engine call inside `runRestore` returns
an error, the run terminates fatally (non-zero exit), the durable status has
been updated to Failed with a Failed stat (carrying an error message) for
the failing host, and that status update is on the trace — i.e. it happens
before the process exits; the transfer error is never dropped with a normal
exit.  Holds in both execution modes. -/
theorem transfer_error_records_failed_before_fatal_exit (w : World)
    (st : RestoreSessionStatus) (base : RestoreSessionBase)
    (tgt : RestoreTarget) (host e : String)
    (hbase : w.sessionBase = Except.ok base)
    (htgt : base.spec.target = some tgt)
    (hrepo : w.repositoryGet = Except.ok ())
    (hhost : w.getHostName (some tgt) = Except.ok host)
    (hsetup : w.setupOptionsForRepository = Except.ok ())
    (hnice : w.niceSettingsFromEnv = Except.ok ())
    (hionice : w.ioNiceSettingsFromEnv = Except.ok ())
    (hwrap : w.newResticWrapper = Except.ok ())
    (hlock : w.newResourceLock = Except.ok ())
    (heng : w.runRestoreEngine host = Except.error e)
    (hwrite : w.statusWrite = Except.ok ())
    (hguard : isRestoredForThisHost (mkSession base st) host = false) :
    (restoreProcess w st).1.isFatal = true ∧
    (restoreProcess w st).2.1 =
      ⟨RestoreSessionPhase.Failed,
       st.stats ++ [⟨host, HostRestorePhase.Failed, invalidRestoreOutputMsg⟩]⟩ ∧
    Event.engineInvoked host ∈ (restoreProcess w st).2.2 ∧
    Event.statusUpdated
        ⟨RestoreSessionPhase.Failed,
         st.stats ++ [⟨host, HostRestorePhase.Failed, invalidRestoreOutputMsg⟩]⟩
      ∈ (restoreProcess w st).2.2 :=
  restoreProcess_engine_error_facts w st base tgt host e hbase htgt hrepo hhost
    hsetup hnice hionice hwrap hlock heng hwrite hguard

/-- Witness for C1 at a concrete run whose engine fails with
"repository locked". -/
theorem transfer_error_records_failed_before_fatal_exit_witness :
    (restoreProcess demoWorld emptyStatus).1.isFatal = true ∧
    (restoreProcess demoWorld emptyStatus).2.1 =
      ⟨RestoreSessionPhase.Failed,
       emptyStatus.stats ++
         [⟨"host-0", HostRestorePhase.Failed, invalidRestoreOutputMsg⟩]⟩ ∧
    Event.engineInvoked "host-0" ∈ (restoreProcess demoWorld emptyStatus).2.2 ∧
    Event.statusUpdated
        ⟨RestoreSessionPhase.Failed,
         emptyStatus.stats ++
           [⟨"host-0", HostRestorePhase.Failed, invalidRestoreOutputMsg⟩]⟩
      ∈ (restoreProcess demoWorld emptyStatus).2.2 :=
  transfer_error_records_failed_before_fatal_exit demoWorld emptyStatus demoBase
    ⟨demoTargetRef⟩ "host-0" "repository locked" rfl rfl rfl rfl rfl rfl rfl rfl
    rfl rfl rfl (by decide)

/-! ### C10: hostname resolution is deterministic and consistent -/

/-- C10: hostname resolution is a fixed function of the Target, so every
resolution for this session — including one after a crash and re-entry with
a different durable status — yields the same hostname, the engine is invoked
for exactly that hostname, and the failure stat recorded by
`HandleRestoreFailure` is keyed by that same hostname (every stat of the
updated status is either pre-existing or keyed by the resolved host). -/
theorem hostname_resolution_consistent (w : World)
    (st : RestoreSessionStatus) (base : RestoreSessionBase)
    (tgt : RestoreTarget) (host e : String)
    (hbase : w.sessionBase = Except.ok base)
    (htgt : base.spec.target = some tgt)
    (hrepo : w.repositoryGet = Except.ok ())
    (hhost : w.getHostName (some tgt) = Except.ok host)
    (hsetup : w.setupOptionsForRepository = Except.ok ())
    (hnice : w.niceSettingsFromEnv = Except.ok ())
    (hionice : w.ioNiceSettingsFromEnv = Except.ok ())
    (hwrap : w.newResticWrapper = Except.ok ())
    (hlock : w.newResourceLock = Except.ok ())
    (heng : w.runRestoreEngine host = Except.error e)
    (hwrite : w.statusWrite = Except.ok ())
    (hguard : isRestoredForThisHost (mkSession base st) host = false) :
    (∀ st2 : RestoreSessionStatus,
       w.getHostName (mkSession base st2).spec.target = Except.ok host) ∧
    Event.engineInvoked host ∈ (restoreProcess w st).2.2 ∧
    ∃ stF, Event.statusUpdated stF ∈ (restoreProcess w st).2.2 ∧
      ∀ hs ∈ stF.stats, hs ∈ st.stats ∨ hs.hostname = host := by
  obtain ⟨h1, h2, h3, h4⟩ := restoreProcess_engine_error_facts w st base tgt host e
    hbase htgt hrepo hhost hsetup hnice hionice hwrap hlock heng hwrite hguard
  refine ⟨fun st2 => by simp [htgt, hhost], h3, ⟨_, h4, ?_⟩⟩
  intro hs hmem
  rcases List.mem_append.mp hmem with h | h
  · exact Or.inl h
  · right
    have heq : hs = ⟨host, HostRestorePhase.Failed, invalidRestoreOutputMsg⟩ := by
      simpa using h
    rw [heq]

/-- Witness for C10 at the concrete failing run. -/
theorem hostname_resolution_consistent_witness :
    Event.engineInvoked "host-0" ∈ (restoreProcess demoWorld emptyStatus).2.2 :=
  (hostname_resolution_consistent demoWorld emptyStatus demoBase
    ⟨demoTargetRef⟩ "host-0" "repository locked" rfl rfl rfl rfl rfl rfl rfl rfl
    rfl rfl rfl (by decide)).2.1

/-! ### Traces of the executor contain no mutex interaction -/

/-- The status updater's trace never contains a lock event. -/
theorem updatePostRestoreStatus_trace_lockfree (w : World)
    (st : RestoreSessionStatus) (o : Option RestoreOutput) :
    ((updatePostRestoreStatus w st o).2.2.all
        (fun ev => !ev.isLockEvent)) = true := by
  unfold updatePostRestoreStatus
  cases o with
  | none => simp
  | some out =>
    cases hw : w.statusWrite with
    | error e => simp
    | ok u => simp [Event.isLockEvent]

/-- `runRestore` never interacts with the Distributed Mutex: its trace holds
no lock event. -/
theorem runRestore_trace_lockfree (w : World) (sess : RestoreSession)
    (st : RestoreSessionStatus) :
    ((runRestore w sess st).2.2.all (fun ev => !ev.isLockEvent)) = true := by
  unfold runRestore
  cases hh : w.getHostName sess.spec.target with
  | error e => simp
  | ok host =>
    by_cases hg : isRestoredForThisHost sess host = true
    · simp [hg]
    · rw [Bool.not_eq_true] at hg
      cases hwrap : w.newResticWrapper with
      | error e => simp [hg]
      | ok u =>
        cases he : w.runRestoreEngine host with
        | error e => simp [hg, he, updatePostRestoreStatus, Event.isLockEvent]
        | ok out =>
          cases hw : w.statusWrite with
          | error e2 => simp [hg, he, updatePostRestoreStatus, hw, Event.isLockEvent]
          | ok u2 => simp [hg, he, updatePostRestoreStatus, hw, Event.isLockEvent]

/-! ### C8: explicit step-down before termination on the elected path -/

/-- C8: in Exclusive mode, once the lock is built, the run's trace starts
with the lock acquisition and ends with the explicit step-down — on the
success path and on the failure path alike — and the outcome (normal return
or fatal exit) comes only after the whole trace, so the process never
terminates still holding the lock. -/
theorem leader_path_steps_down_last (w : World) (st : RestoreSessionStatus)
    (base : RestoreSessionBase) (tgt : RestoreTarget) (host : String)
    (hbase : w.sessionBase = Except.ok base)
    (htgt : base.spec.target = some tgt)
    (hrepo : w.repositoryGet = Except.ok ())
    (hhost : w.getHostName (some tgt) = Except.ok host)
    (hsetup : w.setupOptionsForRepository = Except.ok ())
    (hnice : w.niceSettingsFromEnv = Except.ok ())
    (hionice : w.ioNiceSettingsFromEnv = Except.ok ())
    (hmode : (w.restoreModel == RestoreModelJob) = false)
    (hlock : w.newResourceLock = Except.ok ()) :
    ∃ tr', (Restore w st).2.2 =
      Event.lockAcquired (getRestoreConfigmapLockName tgt.ref) ::
        tr' ++ [Event.stepDown] := by
  have hRestore : Restore w st = electRestoreLeader w (mkSession base st) st := by
    unfold Restore
    simp [hbase, htgt, hrepo, hhost, hsetup, hnice, hionice, hmode]
  rw [hRestore]
  unfold electRestoreLeader
  simp only [mkSession_spec, htgt, hlock]
  rcases hr : runRestore w (mkSession base st) st with ⟨r, st', tr⟩
  cases r with
  | error err =>
    rcases hf : HandleRestoreFailure w st' (some err) with ⟨r2, st'', tr2⟩
    cases r2 with
    | error e2 => exact ⟨tr ++ tr2, by simp [hf]⟩
    | ok u => exact ⟨tr ++ tr2, by simp [hf]⟩
  | ok u => exact ⟨tr, by simp⟩

/-- Witness for C8 at the concrete exclusive-mode run. -/
theorem leader_path_steps_down_last_witness :
    ∃ tr', (Restore demoWorld emptyStatus).2.2 =
      Event.lockAcquired (getRestoreConfigmapLockName demoTargetRef) ::
        tr' ++ [Event.stepDown] :=
  leader_path_steps_down_last demoWorld emptyStatus demoBase ⟨demoTargetRef⟩
    "host-0" rfl rfl rfl rfl rfl rfl rfl (by decide) rfl

/-! ### C6: execution-mode dispatch -/

/-- C6: with RestoreModel = "job" (non-exclusive mode) `Restore` runs
`runRestore` directly and the produced trace holds no Distributed Mutex
interaction at all; with any other RestoreModel the executor only ever runs
inside the acquire/step-down window of the leader election (every engine
invocation on the trace sits strictly between the lock acquisition and the
step-down). -/
theorem restore_mode_dispatch (w : World) (st : RestoreSessionStatus)
    (base : RestoreSessionBase) (tgt : RestoreTarget) (host : String)
    (hbase : w.sessionBase = Except.ok base)
    (htgt : base.spec.target = some tgt)
    (hrepo : w.repositoryGet = Except.ok ())
    (hhost : w.getHostName (some tgt) = Except.ok host)
    (hsetup : w.setupOptionsForRepository = Except.ok ())
    (hnice : w.niceSettingsFromEnv = Except.ok ())
    (hionice : w.ioNiceSettingsFromEnv = Except.ok ()) :
    ((w.restoreModel == RestoreModelJob) = true →
      Restore w st =
        (retOutcome (runRestore w (mkSession base st) st).1,
         (runRestore w (mkSession base st) st).2.1,
         (runRestore w (mkSession base st) st).2.2) ∧
      ((runRestore w (mkSession base st) st).2.2.all
          (fun ev => !ev.isLockEvent)) = true) ∧
    ((w.restoreModel == RestoreModelJob) = false →
      (Restore w st).2.2 = [] ∨
      ∃ tr', ((Restore w st).2.2 =
          Event.lockAcquired (getRestoreConfigmapLockName tgt.ref) ::
            tr' ++ [Event.stepDown] ∧
        ∀ h', Event.engineInvoked h' ∈ (Restore w st).2.2 →
          Event.engineInvoked h' ∈ tr')) := by
  constructor
  · intro hm
    constructor
    · unfold Restore
      rcases hr : runRestore w (mkSession base st) st with ⟨r, st', tr⟩
      simp [hbase, htgt, hrepo, hhost, hsetup, hnice, hionice, hm, hr]
    · exact runRestore_trace_lockfree w (mkSession base st) st
  · intro hm
    have hRestore : Restore w st = electRestoreLeader w (mkSession base st) st := by
      unfold Restore
      simp [hbase, htgt, hrepo, hhost, hsetup, hnice, hionice, hm]
    rw [hRestore]
    unfold electRestoreLeader
    simp only [mkSession_spec, htgt]
    cases hlk : w.newResourceLock with
    | error e => left; simp
    | ok u =>
      right
      rcases hr : runRestore w (mkSession base st) st with ⟨r, st', tr⟩
      cases r with
      | error err =>
        rcases hf : HandleRestoreFailure w st' (some err) with ⟨r2, st'', tr2⟩
        cases r2 with
        | error e2 =>
          refine ⟨tr ++ tr2, by simp [hf], ?_⟩
          intro h' hm'
          simp [hf] at hm'
          simp [List.mem_append]
          tauto
        | ok u2 =>
          refine ⟨tr ++ tr2, by simp [hf], ?_⟩
          intro h' hm'
          simp [hf] at hm'
          simp [List.mem_append]
          tauto
      | ok u2 =>
        refine ⟨tr, by simp, ?_⟩
        intro h' hm'
        simpa using hm'

/-- Witness for C6: the job-mode run never touches the mutex, and its
dispatch goes straight to `runRestore`. -/
theorem restore_mode_dispatch_witness :
    ((runRestore demoJobWorld (mkSession demoBase emptyStatus) emptyStatus).2.2.all
        (fun ev => !ev.isLockEvent)) = true :=
  ((restore_mode_dispatch demoJobWorld emptyStatus demoBase ⟨demoTargetRef⟩
    "host-0" rfl rfl rfl rfl rfl rfl rfl).1 (by decide)).2

/-! ### C2: mutual exclusion of contenders on one lock key

Modelled from the spec: the Distributed Mutex itself is the external
leader-election library (assumed correct at its §4.1 interface), so the
mutex system below is a transition system over its contract: a contender
acquires only when nobody holds the key, runs its `OnStartedLeading` body
(`runRestore`, the step-(3) window `inRun`), and steps down explicitly —
exactly the callback structure of `electRestoreLeader`.  §4.1 also says a
holder whose lease renewal fails loses the lock, while §5 says the executor
does not poll for that signal mid-flight; the `leaseExpire` transition
(enabled by `allowExpire`) is that clause. -/

/-- Where one contender of `electRestoreLeader` stands: still competing,
inside its granted `runRestore` window, finished but not yet stepped down,
or stepped down. -/
inductive ContenderPc
  | start
  | inRun
  | afterRun
  | stepped
deriving DecidableEq, Repr

/-- Global state: the current lock holder and each contender's position. -/
structure MutexSystemState (ι : Type) where
  holder : Option ι
  pc : ι → ContenderPc

/-- One step of the mutex system; see the section comment. -/
inductive MutexStep (ι : Type) [DecidableEq ι] (allowExpire : Bool) :
    MutexSystemState ι → MutexSystemState ι → Prop
  | acquire : ∀ (s : MutexSystemState ι) (i : ι),
      s.holder = none → s.pc i = ContenderPc.start →
      MutexStep ι allowExpire s
        ⟨some i, Function.update s.pc i ContenderPc.inRun⟩
  | finishRun : ∀ (s : MutexSystemState ι) (i : ι),
      s.holder = some i → s.pc i = ContenderPc.inRun →
      MutexStep ι allowExpire s
        ⟨some i, Function.update s.pc i ContenderPc.afterRun⟩
  | stepDown : ∀ (s : MutexSystemState ι) (i : ι),
      s.holder = some i → s.pc i = ContenderPc.afterRun →
      MutexStep ι allowExpire s
        ⟨none, Function.update s.pc i ContenderPc.stepped⟩
  | leaseExpire : ∀ (s : MutexSystemState ι) (i : ι),
      allowExpire = true → s.holder = some i →
      MutexStep ι allowExpire s ⟨none, s.pc⟩

/-- Initially nobody holds the lock and every contender competes. -/
def mutexInit (ι : Type) : MutexSystemState ι :=
  ⟨none, fun _ => ContenderPc.start⟩

/-- The key invariant: a contender inside its granted window (running or not
yet stepped down) is the holder. -/
def MutexInv {ι : Type} (s : MutexSystemState ι) : Prop :=
  ∀ i, (s.pc i = ContenderPc.inRun ∨ s.pc i = ContenderPc.afterRun) →
    s.holder = some i

theorem mutexInv_init (ι : Type) : MutexInv (mutexInit ι) := by
  intro i h
  rcases h with h | h <;> exact absurd h (by simp [mutexInit])

theorem mutexInv_step {ι : Type} [DecidableEq ι] {s t : MutexSystemState ι}
    (hstep : MutexStep ι false s t) (hinv : MutexInv s) : MutexInv t := by
  cases hstep with
  | acquire i h1 h2 =>
    intro j hj
    by_cases hij : j = i
    · subst hij; rfl
    · have hj' : s.pc j = ContenderPc.inRun ∨ s.pc j = ContenderPc.afterRun := by
        simpa [Function.update, hij] using hj
      have hh := hinv j hj'
      rw [h1] at hh
      exact Option.noConfusion hh
  | finishRun i h1 h2 =>
    intro j hj
    by_cases hij : j = i
    · subst hij; rfl
    · have hj' : s.pc j = ContenderPc.inRun ∨ s.pc j = ContenderPc.afterRun := by
        simpa [Function.update, hij] using hj
      have hh := hinv j hj'
      rw [h1] at hh
      exact hh
  | stepDown i h1 h2 =>
    intro j hj
    by_cases hij : j = i
    · subst hij
      exact absurd hj (by simp [Function.update])
    · have hj' : s.pc j = ContenderPc.inRun ∨ s.pc j = ContenderPc.afterRun := by
        simpa [Function.update, hij] using hj
      have hh := hinv j hj'
      rw [h1] at hh
      exact absurd (Option.some.inj hh).symm hij
  | leaseExpire i hexp h1 =>
    exact absurd hexp (by simp)

theorem mutexInv_reachable {ι : Type} [DecidableEq ι] {s : MutexSystemState ι}
    (h : Relation.ReflTransGen (MutexStep ι false) (mutexInit ι) s) :
    MutexInv s := by
  induction h with
  | refl => exact mutexInv_init ι
  | tail hab hbc ih => exact mutexInv_step hbc ih

/-- C2 counterexample: under the spec's own lease-expiry clause (§4.1 —
renewal failure loses the lock — combined with §5 — the executor does not
poll for the loss signal mid-flight), the mutex system reaches a state in
which two distinct contenders are both inside their granted step-(3)
windows, so the claim of unconditional non-overlap is false: contender
`false` acquires, its lease expires mid-run, contender `true` acquires. -/
theorem lease_expiry_overlap_reachable :
    ∃ s : MutexSystemState Bool,
      Relation.ReflTransGen (MutexStep Bool true) (mutexInit Bool) s ∧
      s.pc false = ContenderPc.inRun ∧ s.pc true = ContenderPc.inRun := by
  have h1 : MutexStep Bool true (mutexInit Bool)
      ⟨some false, Function.update (fun _ => ContenderPc.start) false
        ContenderPc.inRun⟩ :=
    MutexStep.acquire (mutexInit Bool) false rfl rfl
  have h2 : MutexStep Bool true
      ⟨some false, Function.update (fun _ => ContenderPc.start) false
        ContenderPc.inRun⟩
      ⟨none, Function.update (fun _ => ContenderPc.start) false
        ContenderPc.inRun⟩ :=
    MutexStep.leaseExpire _ false rfl rfl
  have h3 : MutexStep Bool true
      ⟨none, Function.update (fun _ => ContenderPc.start) false
        ContenderPc.inRun⟩
      ⟨some true, Function.update (Function.update (fun _ => ContenderPc.start)
        false ContenderPc.inRun) true ContenderPc.inRun⟩ :=
    MutexStep.acquire _ true rfl (by simp [Function.update])
  refine ⟨_, ((Relation.ReflTransGen.single h1).tail h2).tail h3, ?_, ?_⟩
  · simp [Function.update]
  · simp [Function.update]

/-- C2 as amended: as long as no holder's lease expires while its unit of
work is in flight (no `leaseExpire` transition), any two contenders found
inside their granted step-(3) windows in a reachable state are the same
contender — the leader-elected `runRestore` executions never overlap. -/
theorem mutual_exclusion_without_lease_expiry (ι : Type) [DecidableEq ι]
    (s : MutexSystemState ι)
    (hreach : Relation.ReflTransGen (MutexStep ι false) (mutexInit ι) s)
    (i j : ι) (hi : s.pc i = ContenderPc.inRun)
    (hj : s.pc j = ContenderPc.inRun) : i = j := by
  have hinv := mutexInv_reachable hreach
  have h1 := hinv i (Or.inl hi)
  have h2 := hinv j (Or.inl hj)
  rw [h1] at h2
  exact Option.some.inj h2

/-- Witness for the amended C2 at a concrete reachable state with one
contender mid-run. -/
theorem mutual_exclusion_without_lease_expiry_witness : (false : Bool) = false :=
  mutual_exclusion_without_lease_expiry Bool
    ⟨some false, Function.update (fun _ => ContenderPc.start) false
      ContenderPc.inRun⟩
    (Relation.ReflTransGen.single
      (MutexStep.acquire (mutexInit Bool) false rfl rfl))
    false false (by simp [Function.update]) (by simp [Function.update])

end Stash
